import Mathlib

/-!
Shallow embedding of the HMChefApp backend core: the token service
(`app/services/auth.py`), the Redis-backed credential and recipe store
(`app/services/redis_hander.py`), and the access guard and delete route
(`app/routes/recipes.py`).

Modelling conventions:
* JWT tokens are modelled symbolically: a token is either malformed input or a
  well-formed token `signed claims key alg` whose MAC signature was produced
  with `key` under algorithm `alg`.  `jwt_decode` models
  `jwt.decode(token, key, algorithms=["HS256"])` from PyJWT: it fails on
  malformed input, on a signature that does not verify against `key`, and on an
  algorithm outside the allow-list, and (PyJWT default `verify_exp`) raises
  `ExpiredSignatureError` when an `exp` claim satisfies `exp <= now`.
* Claim mappings are restricted to the two claim names the program ever reads:
  `username` and `exp` (an absolute POSIX timestamp in seconds, as PyJWT
  serialises the `datetime` written by `create_token`).
* bcrypt via passlib is modelled by a deterministic stand-in hash whose
  verification routine accepts exactly the hash of the presented password;
  the properties used are `verify p (hash p) = true` and `hash p` nonempty,
  both true of real bcrypt output.
* Redis is one key space holding either plain string values (password keys) or
  RedisJSON documents, modelled as association lists.  `RedisState.down`
  models an unreachable store: every client call raises, which each handler
  method catches and converts as the source does.
* JSON documents are genuine trees (`JVal`): every value the program writes is
  built from strings and objects (`recipe.model_dump()` has five string
  fields, the lazy init writes `{}`), so these two constructors cover the
  reachable documents.  The recipe handlers interpolate ids into legacy
  RedisJSON paths, `Path(f".{id}")`; `parsePath` models that grammar: the
  empty id is the root path, a dot-separated sequence of plain identifiers
  (letter or underscore, then letters/digits/underscores) is a segment chain,
  and anything else is a parse error, which the source's broad `except`
  swallows.  `JSON.SET` replaces the value at an existing path, creates the
  final segment when its parent object exists, errors when an intermediate
  segment is missing or the key holds a non-JSON value; `JSON.GET` errors on a
  missing path and returns `None` for a missing key; `JSON.DEL` at the root
  removes the key and ignores nonexistent paths.
-/

/-- The process-wide signing secret, `settings.SECRET_KEY`. -/
def SECRET_KEY : String := "app-secret-key"

/-- A JWT signing algorithm: the one the service uses, or any other. -/
inductive Alg where
  | HS256 : Alg
  | other : String → Alg
deriving DecidableEq, Repr

/-- The claims mapping carried by a token: the two claim names the program
reads.  `none` means the claim is absent from the mapping. -/
structure Claims where
  username : Option String := none
  exp : Option Int := none
deriving DecidableEq, Repr

/-- A string presented as a token: either not a well-formed JWT at all, or a
well-formed JWT whose payload is `Claims`, MAC-signed with the given key under
the given algorithm. -/
inductive TokenInput where
  | malformed : String → TokenInput
  | signed : Claims → String → Alg → TokenInput
deriving DecidableEq, Repr

/-- Model of `jwt.decode(token, key, algorithms=["HS256"])` (PyJWT): returns
the payload, or `none` when PyJWT raises a `PyJWTError` — malformed input, bad
signature, algorithm not in the allow-list, or (default `verify_exp` option)
an `exp` claim with `exp <= now`. -/
def jwt_decode (tok : TokenInput) (key : String) (now : Int) : Option Claims :=
  match tok with
  | .malformed _ => none
  | .signed c k a =>
    if a = Alg.HS256 ∧ k = key then
      match c.exp with
      | some e => if e ≤ now then none else some c
      | none => some c
    else none

/-- `validate_token` from `app/services/auth.py`: decode with the service
secret; afterwards return `(False, None)` when an `exp` claim is in the past,
else `(True, payload)`. -/
def validate_token (token : TokenInput) (now : Int) : Bool × Option Claims :=
  match jwt_decode token SECRET_KEY now with
  | none => (false, none)
  | some payload =>
    match payload.exp with
    | some e => if e < now then (false, none) else (true, some payload)
    | none => (true, some payload)

/-- `create_token` from `app/services/auth.py`: copy `data`; when
`expires_delta` is given, set the `exp` claim to `now + expires_delta`; sign
with the service secret under HS256. -/
def create_token (data : Claims) (expires_delta : Option Int) (now : Int) :
    TokenInput :=
  match expires_delta with
  | none => TokenInput.signed data SECRET_KEY Alg.HS256
  | some d =>
      TokenInput.signed { data with exp := some (now + d) } SECRET_KEY Alg.HS256

/-- Deterministic stand-in for `PWD_CONTEXT.hash` (passlib bcrypt). -/
def hash_password (p : String) : String := String.append "bcrypt-hash:" p

/-- Stand-in for `PWD_CONTEXT.verify`: accepts exactly the hash of the
presented password. -/
def verify_password (p h : String) : Bool := h = hash_password p

/-- A recipe record as validated by the pydantic model (`models.py`): five
string fields, serialised by `model_dump()` in declaration order. -/
structure Recipe where
  id : String
  name : String
  description : String
  category : String
  imageUri : String
deriving DecidableEq, Repr

/-- A JSON value.  Strings and objects suffice for every document the program
writes: recipe records are objects of five string fields and the lazy init
writes the empty object. -/
inductive JVal where
  | jstr : String → JVal
  | jobj : List (String × JVal) → JVal
deriving Repr

/-- A Redis value: a plain string (password keys, via `SET`/`GET`) or a
RedisJSON document (per-user recipe collections, via the `json()` commands). -/
inductive RVal where
  | str : String → RVal
  | json : JVal → RVal
deriving Repr

/-- The Redis store: reachable with a key space, or unreachable (every client
call raises, caught by the handler methods). -/
inductive RedisState where
  | up : List (String × RVal) → RedisState
  | down : RedisState
deriving Repr

/-- First value bound to key `k` in an association list. -/
def findKey (k : String) : List (String × α) → Option α
  | [] => none
  | p :: rest => if p.1 = k then some p.2 else findKey k rest

/-- Bind key `k` to `v`, replacing the first binding of `k` in place, or
appending when `k` is unbound — the semantics of assignment into a JSON
object / Python dict. -/
def setKey (k : String) (v : α) : List (String × α) → List (String × α)
  | [] => [(k, v)]
  | p :: rest => if p.1 = k then (k, v) :: rest else p :: setKey k v rest

/-- Remove the first binding of key `k`. -/
def eraseKey (k : String) : List (String × α) → List (String × α)
  | [] => []
  | p :: rest => if p.1 = k then rest else p :: eraseKey k rest

/-- Split a character list on `.` (the separator of legacy RedisJSON paths). -/
def splitDots : List Char → List (List Char)
  | [] => [[]]
  | c :: rest =>
    if c = '.' then [] :: splitDots rest
    else match splitDots rest with
      | seg :: more => (c :: seg) :: more
      | [] => [[c]]

def isIdentChar (c : Char) : Bool := c.isAlphanum || c = '_'

/-- A plain identifier segment of a legacy RedisJSON path: a letter or
underscore followed by letters, digits or underscores. -/
def isIdentSeg (l : List Char) : Bool :=
  match l with
  | [] => false
  | c :: rest => (c.isAlpha || c = '_') && rest.all isIdentChar

/-- Model of parsing `Path(f".{id}")` under the legacy RedisJSON path grammar:
the empty id yields the root path (`Path(".")` = `Path.root_path()`), a
dot-separated chain of plain identifier segments yields that segment chain,
and any other id (empty segments from leading/trailing/double dots, or
non-identifier characters such as brackets, quotes or spaces) is a parse
error: the command raises and the handler's broad `except` swallows it. -/
def parsePath (id : String) : Option (List String) :=
  if id = "" then some []
  else
    let parts := splitDots id.data
    if parts.all (fun l => isIdentSeg l) then
      some (parts.map (fun l => String.mk l))
    else none

/-- `JSON.GET key path`: walk the segments; a missing segment or a traversal
into a non-object is a path error (`none`). -/
def jsonGetPath : List String → JVal → Option JVal
  | [], v => some v
  | s :: rest, JVal.jobj fields =>
    match findKey s fields with
    | some child => jsonGetPath rest child
    | none => none
  | _ :: _, JVal.jstr _ => none

/-- `JSON.SET key path v`: replace the value at an existing path; create the
final segment when its parent object exists; error (`none`) when an
intermediate segment is missing or a non-object is traversed. -/
def jsonSetPath : List String → JVal → JVal → Option JVal
  | [], _, v => some v
  | [s], JVal.jobj fields, v => some (JVal.jobj (setKey s v fields))
  | s :: rest, JVal.jobj fields, v =>
    match findKey s fields with
    | some child =>
      match jsonSetPath rest child v with
      | some c => some (JVal.jobj (setKey s c fields))
      | none => none
    | none => none
  | _ :: _, JVal.jstr _, _ => none

/-- `JSON.DEL key path` for a nonempty path (the caller handles the root
case, which removes the whole key): delete the addressed member, ignoring
nonexistent paths. -/
def jsonDelPath : List String → JVal → JVal
  | [], v => v
  | [s], JVal.jobj fields => JVal.jobj (eraseKey s fields)
  | s :: rest, JVal.jobj fields =>
    match findKey s fields with
    | some child => JVal.jobj (setKey s (jsonDelPath rest child) fields)
    | none => JVal.jobj fields
  | _ :: _, JVal.jstr s1 => JVal.jstr s1

/-- Python truthiness of a parsed JSON value: empty strings and empty dicts
are falsy. -/
def jval_truthy : JVal → Bool
  | JVal.jstr s1 => s1 ≠ ""
  | JVal.jobj [] => false
  | JVal.jobj (_ :: _) => true

def JVal.isObj : JVal → Bool
  | JVal.jobj _ => true
  | JVal.jstr _ => false

/-- Dictionary lookup `v[f]` on a parsed JSON value (`none` when the key is
absent — `KeyError` — or the value is not a dict — `TypeError`). -/
def JVal.getField : JVal → String → Option JVal
  | JVal.jobj fields, f => findKey f fields
  | JVal.jstr _, _ => none

/-- `recipes[key]["id"] = key` on one entry of the listing loop of
`get_recipes`: set the `id` member of a record from its document key. -/
def withId (k : String) : JVal → JVal
  | JVal.jobj fields => JVal.jobj (setKey "id" (JVal.jstr k) fields)
  | JVal.jstr s1 => JVal.jstr s1

/-- `recipe.model_dump()`: the JSON object of the five string fields, in
declaration order. -/
def recipeToJVal (r : Recipe) : JVal :=
  JVal.jobj [("id", JVal.jstr r.id), ("name", JVal.jstr r.name),
    ("description", JVal.jstr r.description),
    ("category", JVal.jstr r.category), ("imageUri", JVal.jstr r.imageUri)]

/-- `RedisHandler.add_recipes`: if the user key does not exist, initialise it
with an empty JSON document; then `json().set(user, Path(f".{id}"), value)`.
Every Redis error is caught, logged and swallowed, so a failing path write
leaves the lazily initialised document in place: a path parse error writes
nothing more; the root path (empty id) replaces the whole document with the
record; a segment chain writes through `jsonSetPath` and its errors (missing
intermediate segment, non-object traversal, non-JSON key) are swallowed. -/
def RedisHandler.add_recipes (user : String) (value : Recipe) :
    RedisState → RedisState
  | RedisState.down => RedisState.down
  | RedisState.up s =>
    let s1 := match findKey user s with
      | none => setKey user (RVal.json (JVal.jobj [])) s
      | some _ => s
    match parsePath value.id with
    | none => RedisState.up s1
    | some [] =>
      match findKey user s1 with
      | some (RVal.json _) =>
          RedisState.up (setKey user (RVal.json (recipeToJVal value)) s1)
      | _ => RedisState.up s1
    | some (seg :: rest) =>
      match findKey user s1 with
      | some (RVal.json doc) =>
        match jsonSetPath (seg :: rest) doc (recipeToJVal value) with
        | some d1 => RedisState.up (setKey user (RVal.json d1) s1)
        | none => RedisState.up s1
      | _ => RedisState.up s1

/-- `RedisHandler.get_recipes`: `JSON.GET` the whole document; the loop
`recipes[key]["id"] = key` reconstitutes each record's `id` from its key.  Any
error is caught and turned into `[]`: an unreachable store, a missing key
(`None.keys()` raises `AttributeError`), a non-JSON or non-object document,
or any non-dict member value (`TypeError` on item assignment aborts the whole
loop before the local result escapes). -/
def RedisHandler.get_recipes (user : String) : RedisState → List JVal
  | RedisState.down => []
  | RedisState.up s =>
    match findKey user s with
    | some (RVal.json (JVal.jobj fields)) =>
      if fields.all (fun p => JVal.isObj p.2) then
        fields.map (fun p => withId p.1 p.2)
      else []
    | _ => []

/-- `RedisHandler.delete_recipe`: `json().get(user, Path(f".{recipe_id}"))`;
a raising get (parse error, missing path, non-JSON key) or a falsy result
(missing key returns `None`; empty dict) returns `None` without deleting.
On a truthy result the delete executes — the root path removes the whole
key — and then `recipe["imageUri"]` is returned, where a `KeyError` (no such
member) or `TypeError` (the result is a string) is swallowed into `None`
after the deletion already happened. -/
def RedisHandler.delete_recipe (user recipe_id : String) :
    RedisState → Option JVal × RedisState
  | RedisState.down => (none, RedisState.down)
  | RedisState.up s =>
    match parsePath recipe_id with
    | none => (none, RedisState.up s)
    | some segs =>
      match findKey user s with
      | some (RVal.json doc) =>
        match jsonGetPath segs doc with
        | none => (none, RedisState.up s)
        | some recipe =>
          if jval_truthy recipe then
            let s1 := match segs with
              | [] => eraseKey user s
              | _ :: _ => setKey user (RVal.json (jsonDelPath segs doc)) s
            (recipe.getField "imageUri", RedisState.up s1)
          else (none, RedisState.up s)
      | _ => (none, RedisState.up s)

/-- `RedisHandler.set_user_password`: `SET {user}_password` to the hash
(a plain `SET` overwrites any previous value); errors are caught and
swallowed. -/
def RedisHandler.set_user_password (user : String) (hashed_password : String) :
    RedisState → RedisState
  | RedisState.down => RedisState.down
  | RedisState.up s =>
      RedisState.up
        (setKey (String.append user "_password") (RVal.str hashed_password) s)

/-- `RedisHandler.check_user`: `EXISTS {user}_password == 1`; errors are caught
and converted to `False`. -/
def RedisHandler.check_user (user : String) : RedisState → Bool
  | RedisState.down => false
  | RedisState.up s => (findKey (String.append user "_password") s).isSome

/-- `RedisHandler.get_user_password`: `GET {user}_password`; a missing key
yields `None`, and any error (unreachable store, wrong value type) is caught
and falls through to an implicit `None`. -/
def RedisHandler.get_user_password (user : String) :
    RedisState → Option String
  | RedisState.down => none
  | RedisState.up s =>
    match findKey (String.append user "_password") s with
    | some (RVal.str h) => some h
    | _ => none

/-- A raised `fastapi.HTTPException`. -/
structure HTTPException where
  status_code : Nat
  detail : String
deriving DecidableEq, Repr

/-- `register_user` from `app/services/auth.py`: reject an existing username
with 400, otherwise hash and persist the password and issue a token with
claims `{username}` and no expiry.  Returns the outcome together with the
resulting store state. -/
def register_user (username password : String) (now : Int) (st : RedisState) :
    Except HTTPException TokenInput × RedisState :=
  if RedisHandler.check_user username st then
    (Except.error ⟨400, "Username already exists"⟩, st)
  else
    let hashed_password := hash_password password
    let st1 := RedisHandler.set_user_password username hashed_password st
    (Except.ok (create_token { username := some username } none now), st1)

/-- `authenticate_user` from `app/services/auth.py`: look up the stored hash;
on a truthy hash that verifies against the presented password issue a token
with claims `{username}` and no expiry, else return `None`. -/
def authenticate_user (username password : String) (now : Int)
    (st : RedisState) : Option TokenInput :=
  match RedisHandler.get_user_password username st with
  | some h =>
      if h ≠ "" ∧ verify_password password h = true then
        some (create_token { username := some username } none now)
      else none
  | none => none

/-- `validate_header` from `app/routes/recipes.py` (the access guard): 400 when
the Authorization header is missing, 401 when `validate_token` rejects, 403
when the decoded `username` claim differs from the requested `user`, else
return `user`. -/
def validate_header (auth_token : Option TokenInput) (user : Option String)
    (now : Int) : Except HTTPException (Option String) :=
  match auth_token with
  | none => Except.error ⟨400, "Authorization header is missing"⟩
  | some token =>
    match validate_token token now with
    | (false, _) => Except.error ⟨401, "Invalid token"⟩
    | (true, user_info) =>
      if user_info.bind Claims.username ≠ user then
        Except.error ⟨403, "Unauthorized user"⟩
      else
        Except.ok user

/-- The HTTP outcome of a route: the response status and message, whether
returned as a `JSONResponse` or raised as an `HTTPException`. -/
structure HttpResult where
  status_code : Nat
  body : String
deriving DecidableEq, Repr

/-- The `DELETE /` route from `app/routes/recipes.py`: 400 on a missing/empty
`user` parameter, then the guard, then `RedisHandler.delete_recipe` — whose
return value is discarded — followed unconditionally by a 200 response.  (The
handler swallows every Redis error, so the route's 404 branch is unreachable
from the store.) -/
def route_delete_recipe (auth_token : Option TokenInput)
    (user recipe_id : String) (now : Int) (st : RedisState) :
    HttpResult × RedisState :=
  if user = "" then (⟨400, "User Param is missing"⟩, st)
  else
    match validate_header auth_token (some user) now with
    | Except.error e => (⟨e.status_code, e.detail⟩, st)
    | Except.ok _ =>
      let out := RedisHandler.delete_recipe user recipe_id st
      (⟨200, "Recipe deleted successfully"⟩, out.2)

theorem findKey_setKey_self (k : String) (v : α) (l : List (String × α)) :
    findKey k (setKey k v l) = some v := by
  induction l with
  | nil => simp [setKey, findKey]
  | cons p rest ih =>
    by_cases h : p.1 = k
    · simp [setKey, findKey, h]
    · simp [setKey, findKey, h, ih]

theorem findKey_setKey_ne (k k1 : String) (v : α) (l : List (String × α))
    (h : k1 ≠ k) : findKey k1 (setKey k v l) = findKey k1 l := by
  have hk : ¬(k = k1) := fun he => h he.symm
  induction l with
  | nil => simp [setKey, findKey, hk]
  | cons p rest ih =>
    by_cases hp : p.1 = k
    · subst hp
      simp [setKey, findKey, hk]
    · simp [setKey, findKey, hp, ih]

theorem mem_setKey_self (k : String) (v : α) (l : List (String × α)) :
    (k, v) ∈ setKey k v l := by
  induction l with
  | nil => simp [setKey]
  | cons p rest ih =>
    by_cases h : p.1 = k
    · simp [setKey, h]
    · simp only [setKey, if_neg h, List.mem_cons]
      exact Or.inr ih

theorem keys_setKey_sub (k : String) (v : α) (l : List (String × α)) :
    ((setKey k v l).map Prod.fst) = l.map Prod.fst ∨
      ((setKey k v l).map Prod.fst) = l.map Prod.fst ++ [k] := by
  induction l with
  | nil => right; simp [setKey]
  | cons p rest ih =>
    by_cases h : p.1 = k
    · left; simp [setKey, h]
    · rcases ih with ih | ih
      · left; simp [setKey, h, ih]
      · right; simp [setKey, h, ih]

theorem nodup_keys_setKey (k : String) (v : α) (l : List (String × α))
    (h : (l.map Prod.fst).Nodup) : ((setKey k v l).map Prod.fst).Nodup := by
  induction l with
  | nil => simp [setKey]
  | cons p rest ih =>
    simp only [List.map_cons, List.nodup_cons] at h
    by_cases hp : p.1 = k
    · subst hp
      simpa [setKey] using h
    · simp only [setKey, if_neg hp, List.map_cons, List.nodup_cons]
      refine ⟨?_, ih h.2⟩
      rcases keys_setKey_sub k v rest with hs | hs
      · rw [hs]; exact h.1
      · rw [hs]
        simp only [List.mem_append, List.mem_singleton]
        rintro (hm | hm)
        · exact h.1 hm
        · exact hp hm

theorem eq_of_mem_setKey_nodup (k : String) (v : α) (l : List (String × α))
    (hnd : (l.map Prod.fst).Nodup) (v1 : α) (hm : (k, v1) ∈ setKey k v l) :
    v1 = v := by
  induction l with
  | nil =>
    simp only [setKey, List.mem_singleton, Prod.mk.injEq] at hm
    exact hm.2
  | cons p rest ih =>
    simp only [List.map_cons, List.nodup_cons] at hnd
    by_cases hp : p.1 = k
    · subst hp
      simp [setKey] at hm
      rcases hm with hm | hm
      · exact hm
      · exact absurd (List.mem_map_of_mem Prod.fst hm) hnd.1
    · simp only [setKey, if_neg hp, List.mem_cons] at hm
      rcases hm with hm | hm
      · exact absurd (congrArg Prod.fst hm).symm hp
      · exact ih hnd.2 hm

theorem hash_password_ne_empty (p : String) : hash_password p ≠ "" := by
  intro h
  have hd := congrArg String.data h
  rw [hash_password] at hd
  rw [String.append] at hd
  simp at hd

theorem setKey_setKey (k : String) (v v1 : α) (l : List (String × α)) :
    setKey k v (setKey k v1 l) = setKey k v l := by
  induction l with
  | nil => simp [setKey]
  | cons p rest ih =>
    by_cases h : p.1 = k
    · simp [setKey, h]
    · simp [setKey, h, ih]

theorem all_mem {P : α → Bool} (l : List α) (h : l.all P = true) (x : α)
    (hx : x ∈ l) : P x = true := by
  induction l with
  | nil => cases hx
  | cons a rest ih =>
    simp only [List.all_cons, Bool.and_eq_true] at h
    rcases List.mem_cons.mp hx with rfl | hm
    · exact h.1
    · exact ih h.2 hm

theorem all_setKey {P : String × α → Bool} (k : String) (v : α)
    (l : List (String × α)) (hl : l.all P = true) (hv : P (k, v) = true) :
    (setKey k v l).all P = true := by
  induction l with
  | nil => simp [setKey, hv]
  | cons p rest ih =>
    simp only [List.all_cons, Bool.and_eq_true] at hl
    by_cases h : p.1 = k
    · simp [setKey, h, hv, hl.2]
    · simp [setKey, h, hl.1, ih hl.2]

theorem splitDots_no_dot (l : List Char) (hne : l ≠ [])
    (h : ∀ c ∈ l, c ≠ '.') : splitDots l = [l] := by
  induction l with
  | nil => cases hne rfl
  | cons c rest ih =>
    have hc : ¬(c = '.') := h c (List.mem_cons_self c rest)
    by_cases hr : rest = []
    · subst hr
      simp [splitDots, hc]
    · have hrec := ih hr (fun d hd => h d (List.mem_cons_of_mem c hd))
      simp [splitDots, hc, hrec]

theorem ident_no_dot (l : List Char) (h : isIdentSeg l = true) :
    ∀ c ∈ l, c ≠ '.' := by
  match l with
  | [] => simp [isIdentSeg] at h
  | c0 :: rest =>
    simp only [isIdentSeg, Bool.and_eq_true] at h
    intro c hc heq
    subst heq
    rcases List.mem_cons.mp hc with h0 | hm
    · rw [← h0] at h
      exact absurd h.1 (by decide)
    · have := all_mem rest h.2 '.' hm
      exact absurd this (by decide)

theorem parsePath_plain (id : String) (h : isIdentSeg id.data = true) :
    parsePath id = some [id] := by
  have hne : id ≠ "" := by
    intro he
    rw [he] at h
    exact absurd h (by decide)
  have hdne : id.data ≠ [] := by
    intro he
    rw [he] at h
    exact absurd h (by decide)
  have hsplit : splitDots id.data = [id.data] :=
    splitDots_no_dot id.data hdne (ident_no_dot id.data h)
  simp only [parsePath, if_neg hne, hsplit, List.all_cons, List.all_nil,
    Bool.and_true, h, if_pos, List.map_cons, List.map_nil]

theorem add_recipes_plain_eq (u : String) (r : Recipe)
    (s : List (String × RVal)) (d : List (String × JVal))
    (hplain : isIdentSeg r.id.data = true)
    (hdoc : (findKey u s = none ∧ d = []) ∨
      findKey u s = some (RVal.json (JVal.jobj d))) :
    RedisHandler.add_recipes u r (RedisState.up s) =
      RedisState.up (setKey u
        (RVal.json (JVal.jobj (setKey r.id (recipeToJVal r) d))) s) := by
  have hp : parsePath r.id = some [r.id] := parsePath_plain r.id hplain
  rcases hdoc with ⟨hnone, hd⟩ | hsome
  · subst hd
    simp [RedisHandler.add_recipes, hnone, hp, jsonSetPath,
      findKey_setKey_self, setKey_setKey]
  · simp [RedisHandler.add_recipes, hsome, hp, jsonSetPath]

theorem get_recipes_doc (u : String) (s : List (String × RVal))
    (d : List (String × JVal))
    (hfind : findKey u s = some (RVal.json (JVal.jobj d)))
    (hobj : d.all (fun p => JVal.isObj p.2) = true) :
    RedisHandler.get_recipes u (RedisState.up s) =
      d.map (fun p => withId p.1 p.2) := by
  simp [RedisHandler.get_recipes, hfind, hobj]

theorem withId_recipeToJVal (r : Recipe) :
    withId r.id (recipeToJVal r) = recipeToJVal r := by
  simp [withId, recipeToJVal, setKey]

example : validate_token (create_token ⟨some "alice", none⟩ none 0) 99 =
    (true, some ⟨some "alice", none⟩) := by decide

example : validate_token (create_token ⟨some "alice", none⟩ (some 10) 0) 11 =
    (false, none) := by decide

example : validate_token (create_token ⟨some "alice", none⟩ (some 10) 0) 10 =
    (false, none) := by decide

example : validate_token (create_token ⟨some "alice", none⟩ (some 10) 0) 9 =
    (true, some ⟨some "alice", some 10⟩) := by decide

example : parsePath "" = some [] := by decide

example : parsePath "r1" = some ["r1"] := by decide

example : parsePath "a.b" = some ["a", "b"] := by decide

example : parsePath "a.b." = none := by decide

example : parsePath "a b" = none := by decide

/-- C6 (amended): the access guard on a request carrying no token fails with
status 400 and detail "Authorization header is missing" — i.e. it is surfaced
like a missing-field validation error, not as 401/403. -/
theorem C6_missing_token_fails_with_400 (user : Option String) (now : Int) :
    validate_header none user now =
      Except.error ⟨400, "Authorization header is missing"⟩ := rfl

/-- C6 counterexample: on a concrete request with no token the guard rejects
with status code 400, which is neither 401 nor 403, refuting the claim that a
missing credential surfaces as 401/403 rather than 400. -/
theorem C6_counterexample :
    ∃ e : HTTPException,
      validate_header none (some "alice") 0 = Except.error e ∧
      e.status_code = 400 ∧ e.status_code ≠ 401 ∧ e.status_code ≠ 403 :=
  ⟨⟨400, "Authorization header is missing"⟩, rfl, rfl, by decide, by decide⟩

/-- C5: the store layer does distinguish a missing recipe (returns `none`
without deleting; on a present recipe it deletes and returns the record's
`imageUri`), but the HTTP route discards that result: deleting a nonexistent
recipe id answers 200 "Recipe deleted successfully", not 404. -/
theorem C5_delete_missing_recipe_returns_200 :
    RedisHandler.delete_recipe "alice" "r1" (RedisState.up []) =
      (none, RedisState.up []) ∧
    RedisHandler.delete_recipe "alice" "r1"
        (RedisState.up [("alice", RVal.json (JVal.jobj
          [("r1", recipeToJVal ⟨"r1", "Soup", "warm", "dinner", "img-1"⟩)]))]) =
      (some (JVal.jstr "img-1"),
       RedisState.up [("alice", RVal.json (JVal.jobj []))]) ∧
    (route_delete_recipe
        (some (TokenInput.signed ⟨some "alice", none⟩ SECRET_KEY Alg.HS256))
        "alice" "r1" 0 (RedisState.up [])).1 =
      ⟨200, "Recipe deleted successfully"⟩ := by
  refine ⟨rfl, rfl, by decide⟩

/-- C9: the store boundary converts failures into empty/negative results:
`get_recipes` returns `[]` both when the user document is absent and when the
store is unreachable, `check_user` returns `false` and `get_user_password`
returns `none` on an unreachable store, and each result coincides with the
absent case, so callers cannot tell "absent" from "store unreachable". -/
theorem C9_store_failures_masked (u : String) (s : List (String × RVal))
    (habs : findKey u s = none) :
    RedisHandler.get_recipes u RedisState.down = [] ∧
    RedisHandler.get_recipes u (RedisState.up s) = [] ∧
    RedisHandler.check_user u RedisState.down = false ∧
    RedisHandler.get_user_password u RedisState.down = none ∧
    RedisHandler.get_recipes u RedisState.down =
      RedisHandler.get_recipes u (RedisState.up s) ∧
    RedisHandler.check_user u RedisState.down =
      RedisHandler.check_user u (RedisState.up []) ∧
    RedisHandler.get_user_password u RedisState.down =
      RedisHandler.get_user_password u (RedisState.up []) := by
  refine ⟨rfl, ?_, rfl, rfl, ?_, rfl, rfl⟩
  · simp [RedisHandler.get_recipes, habs]
  · simp [RedisHandler.get_recipes, habs]

theorem C9_store_failures_masked_witness :
    RedisHandler.get_recipes "alice" RedisState.down = [] ∧
    RedisHandler.get_recipes "alice" (RedisState.up []) = [] ∧
    RedisHandler.check_user "alice" RedisState.down = false ∧
    RedisHandler.get_user_password "alice" RedisState.down = none ∧
    RedisHandler.get_recipes "alice" RedisState.down =
      RedisHandler.get_recipes "alice" (RedisState.up []) ∧
    RedisHandler.check_user "alice" RedisState.down =
      RedisHandler.check_user "alice" (RedisState.up []) ∧
    RedisHandler.get_user_password "alice" RedisState.down =
      RedisHandler.get_user_password "alice" (RedisState.up []) :=
  C9_store_failures_masked "alice" [] rfl

/-- C10: registering an already-existing username fails with 400 before any
state change: the returned store state is exactly the input state (no password
write) and the outcome carries no token. -/
theorem C10_register_atomic_on_duplicate (u p : String) (now : Int)
    (st : RedisState) (h : RedisHandler.check_user u st = true) :
    register_user u p now st =
      (Except.error ⟨400, "Username already exists"⟩, st) := by
  simp [register_user, h]

theorem C10_register_atomic_on_duplicate_witness :
    register_user "alice" "pw2" 0
        (RedisState.up [("alice_password", RVal.str "h1")]) =
      (Except.error ⟨400, "Username already exists"⟩,
       RedisState.up [("alice_password", RVal.str "h1")]) :=
  C10_register_atomic_on_duplicate "alice" "pw2" 0
    (RedisState.up [("alice_password", RVal.str "h1")]) (by decide)

/-- C4: `validate_token` fails closed — on any input that is not a well-formed
token signed with the service secret under the supported algorithm it returns
`(false, none)` — and decoded claims are returned only in the valid case. -/
theorem C4_validate_fails_closed (t : TokenInput) (now : Int)
    (h : ∀ c : Claims, t ≠ TokenInput.signed c SECRET_KEY Alg.HS256) :
    validate_token t now = (false, none) ∧
    ∀ (t1 : TokenInput) (n : Int) (c : Claims),
      (validate_token t1 n).2 = some c → (validate_token t1 n).1 = true := by
  constructor
  · cases t with
    | malformed s => rfl
    | signed c k a =>
      have hna : ¬(a = Alg.HS256 ∧ k = SECRET_KEY) := by
        rintro ⟨ha, hk⟩
        exact h c (by rw [ha, hk])
      simp [validate_token, jwt_decode, hna]
  · intro t1 n c hc
    rcases t1 with s | ⟨⟨un, ex⟩, k, a⟩
    · simp [validate_token, jwt_decode] at hc
    · by_cases hcond : a = Alg.HS256 ∧ k = SECRET_KEY
      · rcases ex with _ | e
        · simp [validate_token, jwt_decode, hcond]
        · by_cases hle : e ≤ n
          · simp [validate_token, jwt_decode, hcond, hle] at hc
          · have hlt : ¬e < n := fun hl => hle (le_of_lt hl)
            simp [validate_token, jwt_decode, hcond, hle, hlt]
      · simp [validate_token, jwt_decode, hcond] at hc

theorem C4_validate_fails_closed_witness :
    validate_token (TokenInput.malformed "not-a-jwt") 0 = (false, none) ∧
    ∀ (t1 : TokenInput) (n : Int) (c : Claims),
      (validate_token t1 n).2 = some c → (validate_token t1 n).1 = true :=
  C4_validate_fails_closed (TokenInput.malformed "not-a-jwt") 0
    (fun _ hc => TokenInput.noConfusion hc)

/-- C2: a valid token whose claims carry username `a` is rejected by the
access guard with 403 Forbidden when the requested owner is `b ≠ a`; and
whenever the guard succeeds it returns exactly the requested username. -/
theorem C2_authorize_mismatch_forbidden (t : TokenInput) (now : Int)
    (a b : String) (c : Claims)
    (hv : validate_token t now = (true, some c))
    (hu : c.username = some a) (hne : a ≠ b) :
    validate_header (some t) (some b) now =
      Except.error ⟨403, "Unauthorized user"⟩ ∧
    ∀ (tk : Option TokenInput) (user r : Option String) (n : Int),
      validate_header tk user n = Except.ok r → r = user := by
  constructor
  · simp [validate_header, hv, hu, hne]
  · intro tk user r n hok
    rcases tk with _ | tok
    · simp [validate_header] at hok
    · simp only [validate_header] at hok
      rcases hvt : validate_token tok n with ⟨b1, ui⟩
      rw [hvt] at hok
      cases b1
      · simp at hok
      · by_cases hb : ui.bind Claims.username ≠ user
        · simp [hb] at hok
        · simp [hb] at hok
          exact hok.symm

theorem C2_authorize_mismatch_forbidden_witness :
    validate_header
        (some (TokenInput.signed ⟨some "alice", none⟩ SECRET_KEY Alg.HS256))
        (some "bob") 0 = Except.error ⟨403, "Unauthorized user"⟩ ∧
    ∀ (tk : Option TokenInput) (user r : Option String) (n : Int),
      validate_header tk user n = Except.ok r → r = user :=
  C2_authorize_mismatch_forbidden
    (TokenInput.signed ⟨some "alice", none⟩ SECRET_KEY Alg.HS256) 0
    "alice" "bob" ⟨some "alice", none⟩ (by decide) rfl (by decide)

/-- C3 counterexample: the claim quantifies over every claims mapping `d`, but
for a mapping that itself carries an `exp` claim in the past the token issued
with no ttl is not accepted at a later validation time: with
`d = {username: alice, exp: 0}` issued at time 0, validation at time 1 fails. -/
theorem C3_counterexample :
    validate_token (create_token ⟨some "alice", some 0⟩ none 0) 1 =
      (false, none) := by decide

/-- C3 (amended): for every claims mapping `d` carrying no `exp` claim of its
own, a token issued with no ttl validates at every time (returning the embedded
claims); a token issued with ttl `T` is rejected once validation time passes
issuance time + `T`; and in general a token is valid if and only if its
signature verifies against the service secret under the supported algorithm and
its `exp` claim, if present, is strictly in the future at validation time. -/
theorem C3_token_expiry (d : Claims) (hd : d.exp = none) :
    (∀ now now1 : Int,
      validate_token (create_token d none now) now1 = (true, some d)) ∧
    (∀ T now now1 : Int, now + T < now1 →
      validate_token (create_token d (some T) now) now1 = (false, none)) ∧
    (∀ (t : TokenInput) (now : Int), (validate_token t now).1 = true ↔
      ∃ c : Claims, t = TokenInput.signed c SECRET_KEY Alg.HS256 ∧
        (c.exp = none ∨ ∃ e : Int, c.exp = some e ∧ now < e)) := by
  refine ⟨?_, ?_, ?_⟩
  · intro now now1
    simp [create_token, validate_token, jwt_decode, hd]
  · intro T now now1 hlt
    have hle : now + T ≤ now1 := le_of_lt hlt
    simp [create_token, validate_token, jwt_decode, hle]
  · intro t now
    constructor
    · intro hv
      rcases t with s | ⟨⟨un, ex⟩, k, a⟩
      · simp [validate_token, jwt_decode] at hv
      · by_cases hcond : a = Alg.HS256 ∧ k = SECRET_KEY
        · rcases hcond with ⟨ha, hk⟩
          subst ha
          subst hk
          rcases ex with _ | e
          · exact ⟨⟨un, none⟩, rfl, Or.inl rfl⟩
          · by_cases hle : e ≤ now
            · simp [validate_token, jwt_decode, hle] at hv
            · exact ⟨⟨un, some e⟩, rfl, Or.inr ⟨e, rfl, lt_of_not_le hle⟩⟩
        · simp [validate_token, jwt_decode, hcond] at hv
    · rintro ⟨c, rfl, hc⟩
      rcases hc with hnone | ⟨e, he, hlt⟩
      · simp [validate_token, jwt_decode, hnone]
      · have h1 : ¬e ≤ now := not_le.mpr hlt
        have h2 : ¬e < now := fun hl => h1 (le_of_lt hl)
        simp [validate_token, jwt_decode, he, h1, h2]

theorem C3_token_expiry_witness :
    validate_token (create_token ⟨some "alice", none⟩ (some 10) 0) 11 =
      (false, none) :=
  (C3_token_expiry ⟨some "alice", none⟩ rfl).2.1 10 0 11 (by decide)

/-- C8: after a successful registration of a username, a second registration
of the same username fails with 400 "Username already exists", whatever the
second password is. -/
theorem C8_duplicate_registration_fails (u p1 p2 : String)
    (s : List (String × RVal)) (now now1 : Int)
    (h : RedisHandler.check_user u (RedisState.up s) = false) :
    (register_user u p1 now (RedisState.up s)).1 =
      Except.ok (TokenInput.signed ⟨some u, none⟩ SECRET_KEY Alg.HS256) ∧
    (register_user u p2 now1 (register_user u p1 now (RedisState.up s)).2).1 =
      Except.error ⟨400, "Username already exists"⟩ := by
  constructor
  · simp [register_user, h, create_token]
  · have hst : (register_user u p1 now (RedisState.up s)).2 =
        RedisState.up (setKey (String.append u "_password")
          (RVal.str (hash_password p1)) s) := by
      simp [register_user, h, RedisHandler.set_user_password]
    rw [hst]
    have hc : RedisHandler.check_user u (RedisState.up
        (setKey (String.append u "_password")
          (RVal.str (hash_password p1)) s)) = true := by
      simp [RedisHandler.check_user, findKey_setKey_self]
    simp [register_user, hc]

theorem C8_duplicate_registration_fails_witness :
    (register_user "alice" "pw1" 0 (RedisState.up [])).1 =
      Except.ok (TokenInput.signed ⟨some "alice", none⟩ SECRET_KEY Alg.HS256) ∧
    (register_user "alice" "pw2" 1
        (register_user "alice" "pw1" 0 (RedisState.up [])).2).1 =
      Except.error ⟨400, "Username already exists"⟩ :=
  C8_duplicate_registration_fails "alice" "pw1" "pw2" [] 0 1 rfl

/-- C1: when registration of `(u, p)` succeeds (the username was not
previously registered, the store being reachable), authentication with the
same credentials on the resulting store succeeds and returns a token whose
validation succeeds at any later time with a claims mapping carrying
username `u`. -/
theorem C1_register_then_authenticate (u p : String)
    (s : List (String × RVal)) (now now1 now2 : Int)
    (h : RedisHandler.check_user u (RedisState.up s) = false) :
    (register_user u p now (RedisState.up s)).1 =
      Except.ok (TokenInput.signed ⟨some u, none⟩ SECRET_KEY Alg.HS256) ∧
    ∃ t : TokenInput,
      authenticate_user u p now1
        (register_user u p now (RedisState.up s)).2 = some t ∧
      ∃ c : Claims, validate_token t now2 = (true, some c) ∧
        c.username = some u := by
  constructor
  · simp [register_user, h, create_token]
  · have hst : (register_user u p now (RedisState.up s)).2 =
        RedisState.up (setKey (String.append u "_password")
          (RVal.str (hash_password p)) s) := by
      simp [register_user, h, RedisHandler.set_user_password]
    rw [hst]
    refine ⟨TokenInput.signed ⟨some u, none⟩ SECRET_KEY Alg.HS256, ?_,
      ⟨some u, none⟩, ?_, rfl⟩
    · have hgp : RedisHandler.get_user_password u
          (RedisState.up (setKey (String.append u "_password")
            (RVal.str (hash_password p)) s)) = some (hash_password p) := by
        simp [RedisHandler.get_user_password, findKey_setKey_self]
      have hvp : verify_password p (hash_password p) = true := by
        simp [verify_password]
      simp [authenticate_user, hgp, hvp, hash_password_ne_empty p, create_token]
    · simp [validate_token, jwt_decode]

theorem C1_register_then_authenticate_witness :
    (register_user "alice" "pw1" 0 (RedisState.up [])).1 =
      Except.ok (TokenInput.signed ⟨some "alice", none⟩ SECRET_KEY Alg.HS256) ∧
    ∃ t : TokenInput,
      authenticate_user "alice" "pw1" 1
        (register_user "alice" "pw1" 0 (RedisState.up [])).2 = some t ∧
      ∃ c : Claims, validate_token t 2 = (true, some c) ∧
        c.username = some "alice" :=
  C1_register_then_authenticate "alice" "pw1" [] 0 1 2 rfl

/-- C7 counterexample: the claim quantifies over every recipe, but the recipe
id is interpolated into the JSONPath `Path(f".{id}")`: for the empty id that
path is the root path, so `add_recipes` overwrites the whole user document
with the recipe record, and the subsequent listing aborts on the record's
string-valued fields (`TypeError` on `recipes[key]["id"] = key`, caught and
turned into `[]`).  After the add the listing is empty and contains no record
matching the recipe. -/
theorem C7_counterexample :
    RedisHandler.get_recipes "alice"
        (RedisHandler.add_recipes "alice"
          ⟨"", "Soup", "warm", "dinner", "img1"⟩ (RedisState.up [])) = [] ∧
    recipeToJVal ⟨"", "Soup", "warm", "dinner", "img1"⟩ ∉
      RedisHandler.get_recipes "alice"
        (RedisHandler.add_recipes "alice"
          ⟨"", "Soup", "warm", "dinner", "img1"⟩ (RedisState.up [])) := by
  have h : RedisHandler.get_recipes "alice"
      (RedisHandler.add_recipes "alice"
        ⟨"", "Soup", "warm", "dinner", "img1"⟩ (RedisState.up [])) = [] := rfl
  refine ⟨h, ?_⟩
  rw [h]
  exact List.not_mem_nil _

/-- C7 (amended): for recipes whose ids are plain identifiers (a letter or
underscore followed by letters, digits or underscores, so `Path(f".{id}")`
addresses a single top-level document key), on a reachable store whose
document for the user is absent or a duplicate-free collection of record
objects: after `add_recipes u r` the listing contains the record `r` (with its
`id` member reconstituted from the document key, equal to `r.id`); after a
further `add_recipes u r1` with `r1.id = r.id` the listing contains `r1` and
every listed record whose `id` member is that id is exactly `r1` — last write
wins, the id is preserved. -/
theorem C7_add_then_list_upsert (u : String) (r r1 : Recipe)
    (s : List (String × RVal)) (d : List (String × JVal))
    (hr : isIdentSeg r.id.data = true) (hr1 : isIdentSeg r1.id.data = true)
    (hdoc : findKey u s = none ∨
      (findKey u s = some (RVal.json (JVal.jobj d)) ∧
        (d.map Prod.fst).Nodup ∧ d.all (fun p => JVal.isObj p.2) = true))
    (hid : r1.id = r.id) :
    recipeToJVal r ∈ RedisHandler.get_recipes u
        (RedisHandler.add_recipes u r (RedisState.up s)) ∧
    recipeToJVal r1 ∈ RedisHandler.get_recipes u
        (RedisHandler.add_recipes u r1
          (RedisHandler.add_recipes u r (RedisState.up s))) ∧
    ∀ rec ∈ RedisHandler.get_recipes u
        (RedisHandler.add_recipes u r1
          (RedisHandler.add_recipes u r (RedisState.up s))),
      JVal.getField rec "id" = some (JVal.jstr r.id) →
        rec = recipeToJVal r1 := by
  have key : ∀ d0 : List (String × JVal), (d0.map Prod.fst).Nodup →
      d0.all (fun p => JVal.isObj p.2) = true →
      RedisHandler.add_recipes u r (RedisState.up s) =
        RedisState.up (setKey u
          (RVal.json (JVal.jobj (setKey r.id (recipeToJVal r) d0))) s) →
      recipeToJVal r ∈ RedisHandler.get_recipes u
          (RedisHandler.add_recipes u r (RedisState.up s)) ∧
      recipeToJVal r1 ∈ RedisHandler.get_recipes u
          (RedisHandler.add_recipes u r1
            (RedisHandler.add_recipes u r (RedisState.up s))) ∧
      ∀ rec ∈ RedisHandler.get_recipes u
          (RedisHandler.add_recipes u r1
            (RedisHandler.add_recipes u r (RedisState.up s))),
        JVal.getField rec "id" = some (JVal.jstr r.id) →
          rec = recipeToJVal r1 := by
    intro d0 hnd0 hobj0 h1
    have hobjD1 : (setKey r.id (recipeToJVal r) d0).all
        (fun p => JVal.isObj p.2) = true :=
      all_setKey r.id (recipeToJVal r) d0 hobj0
        (by simp [recipeToJVal, JVal.isObj])
    have hget1 : RedisHandler.get_recipes u
        (RedisHandler.add_recipes u r (RedisState.up s)) =
        (setKey r.id (recipeToJVal r) d0).map (fun p => withId p.1 p.2) := by
      rw [h1]
      exact get_recipes_doc u _ _ (findKey_setKey_self u _ s) hobjD1
    have h2 : RedisHandler.add_recipes u r1
        (RedisHandler.add_recipes u r (RedisState.up s)) =
        RedisState.up (setKey u
          (RVal.json (JVal.jobj
            (setKey r1.id (recipeToJVal r1) (setKey r.id (recipeToJVal r) d0))))
          (setKey u
            (RVal.json (JVal.jobj (setKey r.id (recipeToJVal r) d0))) s)) := by
      rw [h1]
      exact add_recipes_plain_eq u r1 _ (setKey r.id (recipeToJVal r) d0) hr1
        (Or.inr (findKey_setKey_self u _ s))
    have hobjD2 : (setKey r1.id (recipeToJVal r1)
        (setKey r.id (recipeToJVal r) d0)).all
        (fun p => JVal.isObj p.2) = true :=
      all_setKey r1.id (recipeToJVal r1) _ hobjD1
        (by simp [recipeToJVal, JVal.isObj])
    have hget2 : RedisHandler.get_recipes u
        (RedisHandler.add_recipes u r1
          (RedisHandler.add_recipes u r (RedisState.up s))) =
        (setKey r1.id (recipeToJVal r1) (setKey r.id (recipeToJVal r) d0)).map
          (fun p => withId p.1 p.2) := by
      rw [h2]
      exact get_recipes_doc u _ _ (findKey_setKey_self u _ _) hobjD2
    have hndD1 : ((setKey r.id (recipeToJVal r) d0).map Prod.fst).Nodup :=
      nodup_keys_setKey r.id (recipeToJVal r) d0 hnd0
    refine ⟨?_, ?_, ?_⟩
    · rw [hget1]
      refine List.mem_map.mpr ⟨(r.id, recipeToJVal r),
        mem_setKey_self r.id (recipeToJVal r) d0, ?_⟩
      exact withId_recipeToJVal r
    · rw [hget2]
      refine List.mem_map.mpr ⟨(r1.id, recipeToJVal r1),
        mem_setKey_self r1.id (recipeToJVal r1) _, ?_⟩
      exact withId_recipeToJVal r1
    · intro rec hrec hfid
      rw [hget2] at hrec
      rcases List.mem_map.mp hrec with ⟨⟨k, v⟩, hkv, hf⟩
      have hvobj : JVal.isObj v = true := all_mem _ hobjD2 (k, v) hkv
      rcases v with vs | f
      · exact absurd hvobj (by simp [JVal.isObj])
      · rw [← hf] at hfid
        simp only [withId, JVal.getField, findKey_setKey_self,
          Option.some.injEq, JVal.jstr.injEq] at hfid
        rw [← hid] at hfid
        subst hfid
        have hv : JVal.jobj f = recipeToJVal r1 :=
          eq_of_mem_setKey_nodup r1.id (recipeToJVal r1) _ hndD1
            (JVal.jobj f) hkv
        rw [← hf, hv, withId_recipeToJVal]
  rcases hdoc with hnone | ⟨hsome, hnd, hobj⟩
  · exact key [] (by simp) rfl
      (add_recipes_plain_eq u r s [] hr (Or.inl ⟨hnone, rfl⟩))
  · exact key d hnd hobj (add_recipes_plain_eq u r s d hr (Or.inr hsome))

theorem C7_add_then_list_upsert_witness :
    recipeToJVal ⟨"r1", "Soup", "warm", "dinner", "img1"⟩ ∈
      RedisHandler.get_recipes "alice"
        (RedisHandler.add_recipes "alice"
          ⟨"r1", "Soup", "warm", "dinner", "img1"⟩ (RedisState.up [])) ∧
    recipeToJVal ⟨"r1", "Stew", "hearty", "dinner", "img2"⟩ ∈
      RedisHandler.get_recipes "alice"
        (RedisHandler.add_recipes "alice"
          ⟨"r1", "Stew", "hearty", "dinner", "img2"⟩
          (RedisHandler.add_recipes "alice"
            ⟨"r1", "Soup", "warm", "dinner", "img1"⟩ (RedisState.up []))) ∧
    ∀ rec ∈ RedisHandler.get_recipes "alice"
        (RedisHandler.add_recipes "alice"
          ⟨"r1", "Stew", "hearty", "dinner", "img2"⟩
          (RedisHandler.add_recipes "alice"
            ⟨"r1", "Soup", "warm", "dinner", "img1"⟩ (RedisState.up []))),
      JVal.getField rec "id" = some (JVal.jstr "r1") →
        rec = recipeToJVal ⟨"r1", "Stew", "hearty", "dinner", "img2"⟩ :=
  C7_add_then_list_upsert "alice"
    ⟨"r1", "Soup", "warm", "dinner", "img1"⟩
    ⟨"r1", "Stew", "hearty", "dinner", "img2"⟩ [] []
    (by decide) (by decide) (Or.inl rfl) rfl
